import Mathlib

/-!
Verification of the `tickets-distribution` repository: a shallow embedding of
the packet codec (`udp_tools/src/tool_udppacket`), the transport helpers
(`udp_tools/src/tool_udphelper`) and the reservation ledger
(`udp_ticket_distribution/src/distr.rs`), together with theorems settling the
specification claims.

Machine integers are modelled as `Nat` (with explicit bounds or `% 2^w`
where wrap-around matters); Rust panics (`unwrap` on `Err`/`None`,
out-of-bounds slicing) are modelled by an `Option` layer whose `none`
value marks a panic; fallible operations return `Except String`.
-/

set_option maxRecDepth 100000

namespace TicketsDistribution

/-! ## CRC-16/IBM-SDLC (`tool_packetdata.rs::make_crc`)

The `crc` crate's `Crc::<u16>::new(&CRC_16_IBM_SDLC).checksum(data)` computes
the reflected CRC with polynomial 0x1021 (reversed: 0x8408 = 33800),
init 0xFFFF, and final xor 0xFFFF.  We embed the standard bitwise form:
xor the byte into the state, then eight conditional shift/xor rounds. -/

/-- One bit round of the reflected CRC-16/IBM-SDLC update. -/
def crcBitStep (s : Nat) : Nat :=
  if s % 2 = 1 then (s / 2) ^^^ 33800 else s / 2

/-- `m` successive bit rounds. -/
def crcIter : Nat → Nat → Nat
  | 0, s => s
  | m + 1, s => crcIter m (crcBitStep s)

/-- Absorb one byte: xor it into the state and run eight bit rounds. -/
def crcByteStep (s b : Nat) : Nat := crcIter 8 (s ^^^ b)

/-- `make_crc` from `tool_packetdata.rs`: CRC-16/IBM-SDLC over the bytes. -/
def make_crc (data : List Nat) : Nat :=
  data.foldl crcByteStep 65535 ^^^ 65535

/-- Validation against the crc value recorded in the repository's
`toolpacketdata_serde` test: crc(b"cbor test") = 0x4535. -/
example : make_crc [99, 98, 111, 114, 32, 116, 101, 115, 116] = 17717 := by decide

/-- Validation against the `tooludppacket_serde` test: crc(b"data") = 0xAD6C. -/
example : make_crc [100, 97, 116, 97] = 44396 := by decide

/-! ## Packet data container (`tool_packetdata.rs`) -/

/-- `PacketData`: a payload together with its integrity code. -/
structure PacketData where
  crc : Nat
  data : List Nat
  deriving DecidableEq, Repr

namespace PacketData

/-- `PacketData::new_with_data`: stores the bytes with a freshly computed crc. -/
def new_with_data (data : List Nat) : PacketData :=
  { crc := make_crc data, data := data }

/-- `PacketData::try_retrieve_data`: recompute the crc and compare with the
stored one; on mismatch fail with "Crc error!". -/
def try_retrieve_data (pd : PacketData) : Except String (List Nat) :=
  let crc := make_crc pd.data
  match pd.crc == crc with
  | true => Except.ok pd.data
  | false => Except.error "Crc error!"

end PacketData

/-! ## Packets (`tool_udppacket/mod.rs`) -/

/-- `PacketRequest`: possible client requests (serialized as 1, 2, 3). -/
inductive PacketRequest where
  | Ping
  | GetFlights
  | RequestTicket
  deriving DecidableEq, Repr

/-- `PacketResponse`: possible server responses (serialized as 0, 1, 2, 3). -/
inductive PacketResponse where
  | None
  | Ok
  | ErrorInRequest
  | TicketsSold
  deriving DecidableEq, Repr

/-- `UdpPacket`: the wire record `{secret, request, response, data}`. -/
structure UdpPacket where
  secret : Nat
  request : PacketRequest
  response : PacketResponse
  data : Option PacketData
  deriving DecidableEq, Repr

namespace UdpPacket

/-- `UdpPacket::new_with_request`: secret 51, response `None`, no data. -/
def new_with_request (request : PacketRequest) : UdpPacket :=
  { secret := 51, request := request, response := PacketResponse.None, data := none }

/-- `UdpPacket::set_data`: wrap the bytes in a `PacketData` with fresh crc. -/
def set_data (p : UdpPacket) (data : List Nat) : UdpPacket :=
  { p with data := some (PacketData.new_with_data data) }

/-- `UdpPacket::set_response`. -/
def set_response (p : UdpPacket) (response : PacketResponse) : UdpPacket :=
  { p with response := response }

/-- `UdpPacket::try_retrieve_data`: reject a wrong secret, then a missing
payload container, then delegate to `PacketData::try_retrieve_data`. -/
def try_retrieve_data (p : UdpPacket) : Except String (List Nat) :=
  if p.secret ≠ 51 then Except.error "Secret is invalid!"
  else
    match p.data with
    | none => Except.error "Data is None!"
    | some pd => pd.try_retrieve_data

end UdpPacket

/-! ## CBOR serialization (`serde_cbor` as used by `to_bytes` / `From<Vec<u8>>`)

`UdpPacket::to_bytes` runs `serde_cbor::to_writer`, which emits the struct as
a definite-length CBOR map with text keys in field order; `Serialize_repr`
enums become unsigned integers, `Option::None` becomes null (0xF6), and
`Vec<u8>` becomes an array of unsigned integers. -/

/-- CBOR head for major type `m` and argument `n` (`n < 2^64`), shortest-form
as emitted by `serde_cbor`. -/
def cborHead (m n : Nat) : List Nat :=
  if n < 24 then [32 * m + n]
  else if n < 256 then [32 * m + 24, n]
  else if n < 65536 then [32 * m + 25, n / 256, n % 256]
  else if n < 4294967296 then
    [32 * m + 26, n / 16777216 % 256, n / 65536 % 256, n / 256 % 256, n % 256]
  else
    [32 * m + 27, n / 72057594037927936 % 256, n / 281474976710656 % 256,
      n / 1099511627776 % 256, n / 4294967296 % 256, n / 16777216 % 256,
      n / 65536 % 256, n / 256 % 256, n % 256]

/-- CBOR text string from its UTF-8 bytes. -/
def cborText (s : List Nat) : List Nat := cborHead 3 s.length ++ s

/-- UTF-8 bytes of the field key "secret". -/
def keySecret : List Nat := [115, 101, 99, 114, 101, 116]
/-- UTF-8 bytes of the field key "request". -/
def keyRequest : List Nat := [114, 101, 113, 117, 101, 115, 116]
/-- UTF-8 bytes of the field key "response". -/
def keyResponse : List Nat := [114, 101, 115, 112, 111, 110, 115, 101]
/-- UTF-8 bytes of the field key "data". -/
def keyData : List Nat := [100, 97, 116, 97]
/-- UTF-8 bytes of the field key "crc". -/
def keyCrc : List Nat := [99, 114, 99]

/-- Wire code of a request kind (`Serialize_repr`, numbered from 1). -/
def reqCode : PacketRequest → Nat
  | PacketRequest.Ping => 1
  | PacketRequest.GetFlights => 2
  | PacketRequest.RequestTicket => 3

/-- Wire code of a response kind (`Serialize_repr`, numbered from 0). -/
def respCode : PacketResponse → Nat
  | PacketResponse.None => 0
  | PacketResponse.Ok => 1
  | PacketResponse.ErrorInRequest => 2
  | PacketResponse.TicketsSold => 3

/-- Serialization of the `data` field: null for `None`, otherwise the
`PacketData` struct as a two-entry map. -/
def dataFieldBytes : Option PacketData → List Nat
  | none => [246]
  | some pd =>
      cborHead 5 2 ++ cborText keyCrc ++ cborHead 0 pd.crc ++
        cborText keyData ++ cborHead 4 pd.data.length ++
        (pd.data.map (fun b => cborHead 0 b)).flatten

/-- `UdpPacket::to_bytes`: the CBOR encoding written by `serde_cbor::to_writer`. -/
def to_bytes (p : UdpPacket) : List Nat :=
  cborHead 5 4 ++
    cborText keySecret ++ cborHead 0 p.secret ++
    cborText keyRequest ++ cborHead 0 (reqCode p.request) ++
    cborText keyResponse ++ cborHead 0 (respCode p.response) ++
    cborText keyData ++ dataFieldBytes p.data

/-- Validation against the byte-exact vector in the repository's
`tooludppacket_serde` test: the encoding of a Ping packet carrying b"data". -/
example :
    to_bytes ((UdpPacket.new_with_request PacketRequest.Ping).set_data
        [100, 97, 116, 97]) =
      [164, 102, 115, 101, 99, 114, 101, 116, 24, 51, 103, 114, 101, 113, 117,
        101, 115, 116, 1, 104, 114, 101, 115, 112, 111, 110, 115, 101, 0, 100,
        100, 97, 116, 97, 162, 99, 99, 114, 99, 25, 173, 108, 100, 100, 97,
        116, 97, 132, 24, 100, 24, 97, 24, 116, 24, 97] := by decide

/-! ## CBOR deserialization (`From<Vec<u8>> for UdpPacket`)

`From<Vec<u8>>` runs `serde_cbor::from_reader::<UdpPacket, _>` and `unwrap`s
the result, so a failed parse is a panic.  We embed the parse itself as a
total function returning `Option UdpPacket` (`none` = deserialization error,
hence a panic at the `From` impl); a generic CBOR item parser feeds the
derived struct deserializer (text or index keys, unknown text keys skipped,
duplicate and missing required fields rejected, `Option` field defaulting
to `None` when absent). -/

/-- A parsed CBOR item (the fragment of CBOR relevant to this protocol). -/
inductive CborVal where
  | uint (n : Nat)
  | text (s : List Nat)
  | bytes (s : List Nat)
  | arr (xs : List CborVal)
  | map (kvs : List (CborVal × CborVal))
  | null

/-- Read a CBOR head: major type, argument (any definite-length width), rest. -/
def parseHead : List Nat → Option (Nat × Nat × List Nat)
  | [] => none
  | b :: rest =>
    let m := b / 32
    let a := b % 32
    if a < 24 then some (m, a, rest)
    else if a = 24 then
      match rest with
      | x :: r => some (m, x, r)
      | [] => none
    else if a = 25 then
      match rest with
      | x :: y :: r => some (m, 256 * x + y, r)
      | _ => none
    else if a = 26 then
      match rest with
      | x :: y :: z :: w :: r => some (m, ((x * 256 + y) * 256 + z) * 256 + w, r)
      | _ => none
    else if a = 27 then
      match rest with
      | x0 :: x1 :: x2 :: x3 :: x4 :: x5 :: x6 :: x7 :: r =>
          some (m, ((((((x0 * 256 + x1) * 256 + x2) * 256 + x3) * 256 + x4) *
            256 + x5) * 256 + x6) * 256 + x7, r)
      | _ => none
    else none

/-- Group a flat list of map entries into key-value pairs (fails on an odd
number of items, which cannot arise from a well-formed map body). -/
def chunkPairs : List CborVal → Option (List (CborVal × CborVal))
  | [] => some []
  | _ :: [] => none
  | k :: v :: rest =>
    match chunkPairs rest with
    | none => none
    | some kvs => some ((k, v) :: kvs)

/-- Parse `count` consecutive CBOR items with a given single-item parser. -/
def parseManyGo (step : List Nat → Option (CborVal × List Nat)) :
    Nat → List Nat → Option (List CborVal × List Nat)
  | 0, l => some ([], l)
  | c + 1, l =>
    match step l with
    | none => none
    | some (v, r) =>
      match parseManyGo step c r with
      | none => none
      | some (vs, r2) => some (v :: vs, r2)

/-- Parse a single CBOR item.  The fuel bounds the nesting depth, exactly as
`serde_cbor`\'s recursion limit does (its default is 128 levels). -/
def parseOne : Nat → List Nat → Option (CborVal × List Nat)
  | 0, _ => none
  | fuel + 1, l =>
    match parseHead l with
    | none => none
    | some (m, a, rest) =>
      if m = 0 then some (CborVal.uint a, rest)
      else if m = 2 then
        if a ≤ rest.length then some (CborVal.bytes (rest.take a), rest.drop a)
        else none
      else if m = 3 then
        if a ≤ rest.length then some (CborVal.text (rest.take a), rest.drop a)
        else none
      else if m = 4 then
        match parseManyGo (parseOne fuel) a rest with
        | none => none
        | some (xs, r) => some (CborVal.arr xs, r)
      else if m = 5 then
        match parseManyGo (parseOne fuel) (2 * a) rest with
        | none => none
        | some (xs, r) =>
          match chunkPairs xs with
          | none => none
          | some kvs => some (CborVal.map kvs, r)
      else if m = 7 then
        if a = 22 then some (CborVal.null, rest) else none
      else none

/-- Deserialize an unsigned integer that must fit in `u8`. -/
def decodeU8 : CborVal → Option Nat
  | CborVal.uint n => if n < 256 then some n else none
  | _ => none

/-- Deserialize an unsigned integer that must fit in `u16`. -/
def decodeU16 : CborVal → Option Nat
  | CborVal.uint n => if n < 65536 then some n else none
  | _ => none

/-- Deserialize a `PacketRequest` (`Deserialize_repr`: codes 1, 2, 3). -/
def decodeRequest (v : CborVal) : Option PacketRequest :=
  match decodeU8 v with
  | some 1 => some PacketRequest.Ping
  | some 2 => some PacketRequest.GetFlights
  | some 3 => some PacketRequest.RequestTicket
  | _ => none

/-- Deserialize a `PacketResponse` (`Deserialize_repr`: codes 0, 1, 2, 3). -/
def decodeResponse (v : CborVal) : Option PacketResponse :=
  match decodeU8 v with
  | some 0 => some PacketResponse.None
  | some 1 => some PacketResponse.Ok
  | some 2 => some PacketResponse.ErrorInRequest
  | some 3 => some PacketResponse.TicketsSold
  | _ => none

/-- Deserialize a `Vec<u8>`: a CBOR array of `u8` integers. -/
def decodeByteVec : CborVal → Option (List Nat)
  | CborVal.arr xs => xs.mapM decodeU8
  | _ => none

/-- A field identifier of the `PacketData` struct (serde derive accepts the
field name as text or its index as an integer; unknown names are skipped). -/
inductive PdField where
  | crc
  | dataF
  | skip
  deriving DecidableEq, Repr

/-- Resolve a CBOR map key to a `PacketData` field. -/
def pdFieldOf : CborVal → Option PdField
  | CborVal.text s =>
      if s = keyCrc then some PdField.crc
      else if s = keyData then some PdField.dataF
      else some PdField.skip
  | CborVal.uint 0 => some PdField.crc
  | CborVal.uint 1 => some PdField.dataF
  | _ => none

/-- Fold the entries of a `PacketData` map, rejecting duplicate fields and
requiring both fields at the end. -/
def decodePdFields :
    List (CborVal × CborVal) → Option Nat → Option (List Nat) → Option PacketData
  | [], cSlot, dSlot =>
    match cSlot, dSlot with
    | some c, some d => some { crc := c, data := d }
    | _, _ => none
  | (k, v) :: rest, cSlot, dSlot =>
    match pdFieldOf k with
    | none => none
    | some PdField.crc =>
      match cSlot with
      | some _ => none
      | none =>
        match decodeU16 v with
        | none => none
        | some c => decodePdFields rest (some c) dSlot
    | some PdField.dataF =>
      match dSlot with
      | some _ => none
      | none =>
        match decodeByteVec v with
        | none => none
        | some d => decodePdFields rest cSlot (some d)
    | some PdField.skip => decodePdFields rest cSlot dSlot

/-- Deserialize a `PacketData` (must be a CBOR map). -/
def decodePacketData : CborVal → Option PacketData
  | CborVal.map kvs => decodePdFields kvs none none
  | _ => none

/-- Deserialize the `Option<PacketData>` field: null is `None`, anything else
must deserialize as a `PacketData`. -/
def decodeDataField (v : CborVal) : Option (Option PacketData) :=
  match v with
  | CborVal.null => some none
  | v =>
    match decodePacketData v with
    | none => none
    | some pd => some (some pd)

/-- A field identifier of the `UdpPacket` struct. -/
inductive PkField where
  | secret
  | request
  | response
  | dataF
  | skip
  deriving DecidableEq, Repr

/-- Resolve a CBOR map key to a `UdpPacket` field. -/
def pkFieldOf : CborVal → Option PkField
  | CborVal.text s =>
      if s = keySecret then some PkField.secret
      else if s = keyRequest then some PkField.request
      else if s = keyResponse then some PkField.response
      else if s = keyData then some PkField.dataF
      else some PkField.skip
  | CborVal.uint 0 => some PkField.secret
  | CborVal.uint 1 => some PkField.request
  | CborVal.uint 2 => some PkField.response
  | CborVal.uint 3 => some PkField.dataF
  | _ => none

/-- Fold the entries of a `UdpPacket` map: duplicates rejected, the three
scalar fields required, the `Option` field defaulting to `none`. -/
def decodePkFields :
    List (CborVal × CborVal) → Option Nat → Option PacketRequest →
      Option PacketResponse → Option (Option PacketData) → Option UdpPacket
  | [], sSlot, rSlot, pSlot, dSlot =>
    match sSlot, rSlot, pSlot with
    | some s, some r, some p =>
        some { secret := s, request := r, response := p, data := dSlot.getD none }
    | _, _, _ => none
  | (k, v) :: rest, sSlot, rSlot, pSlot, dSlot =>
    match pkFieldOf k with
    | none => none
    | some PkField.secret =>
      match sSlot with
      | some _ => none
      | none =>
        match decodeU8 v with
        | none => none
        | some s => decodePkFields rest (some s) rSlot pSlot dSlot
    | some PkField.request =>
      match rSlot with
      | some _ => none
      | none =>
        match decodeRequest v with
        | none => none
        | some r => decodePkFields rest sSlot (some r) pSlot dSlot
    | some PkField.response =>
      match pSlot with
      | some _ => none
      | none =>
        match decodeResponse v with
        | none => none
        | some p => decodePkFields rest sSlot rSlot (some p) dSlot
    | some PkField.dataF =>
      match dSlot with
      | some _ => none
      | none =>
        match decodeDataField v with
        | none => none
        | some d => decodePkFields rest sSlot rSlot pSlot (some d)
    | some PkField.skip => decodePkFields rest sSlot rSlot pSlot dSlot

/-- `From<Vec<u8>> for UdpPacket` without the final `unwrap`: parse one CBOR
item (trailing bytes are not read by `from_reader`) and run the derived
struct deserializer.  `none` marks a deserialization error, which the
source code turns into a panic via `unwrap`. -/
def from_bytes (l : List Nat) : Option UdpPacket :=
  match parseOne 128 l with
  | none => none
  | some (CborVal.map kvs, _) => decodePkFields kvs none none none none
  | some _ => none

/-- Validation: decoding the byte vector from the repository's
`tooludppacket_serde` test yields the original packet. -/
example :
    from_bytes
      [164, 102, 115, 101, 99, 114, 101, 116, 24, 51, 103, 114, 101, 113, 117,
        101, 115, 116, 1, 104, 114, 101, 115, 112, 111, 110, 115, 101, 0, 100,
        100, 97, 116, 97, 162, 99, 99, 114, 99, 25, 173, 108, 100, 100, 97,
        116, 97, 132, 24, 100, 24, 97, 24, 116, 24, 97] =
      some ((UdpPacket.new_with_request PacketRequest.Ping).set_data
        [100, 97, 116, 97]) := by decide

/-! ## Reservation ledger (`udp_ticket_distribution/src/distr.rs`) -/

/-- `FlightInfo`: flight number (`u32`) and number of free seats (`u8`). -/
structure FlightInfo where
  num : Nat
  seats_num : Nat
  deriving DecidableEq, Repr

/-- `FlightDB`: a flight's public info plus its unissued seat codes. -/
structure FlightDB where
  info : FlightInfo
  seats : List String
  deriving DecidableEq, Repr

/-- The seat letters `"ABCDEF"`. -/
def seatLetters : List Char := ['A', 'B', 'C', 'D', 'E', 'F']

/-- The seat codes built by `gen_fake_flight`: for each row `1..=rows`, the
codes `A..F` concatenated with the decimal row number, row-major. -/
def genSeats (rows : Nat) : List String :=
  ((List.range rows).map (fun row =>
    seatLetters.map (fun letter => String.singleton letter ++ toString (row + 1)))).flatten

/-- The row clamping in `gen_fake_flight`: `43.. => 42`, `0 => 1`, else kept. -/
def clampRows (rows : Nat) : Nat :=
  if 43 ≤ rows then 42 else if rows = 0 then 1 else rows

/-- `Distributor::gen_fake_flight`: the next flight number is one more than
the maximum existing number (or 1 for an empty ledger, with `u32` wrap-around
on the addition), the row count is clamped, and the new record is pushed. -/
def gen_fake_flight (db : List FlightDB) (rows : Nat) : List FlightDB :=
  let num : Nat :=
    match (db.map (fun f => f.info.num)).max? with
    | none => 1
    | some maxNum => (1 + maxNum) % 4294967296
  let rows := clampRows rows
  db ++ [{ info := { num := num, seats_num := rows * 6 }, seats := genSeats rows }]

/-- A record matches a `RequestTicket` lookup when its number agrees and it
still has seats. -/
def matchesReq (n : Nat) (f : FlightDB) : Prop :=
  f.info.num = n ∧ 0 < f.info.seats_num

instance (n : Nat) (f : FlightDB) : Decidable (matchesReq n f) := by
  unfold matchesReq; infer_instance

/-- The ledger mutation of the `PacketRequest::RequestTicket` arm of
`make_logic_fn`: find the first record with the requested number and a
positive seat count, pop the last seat code and decrement the count.  The
outer `Option` marks the `seats.pop().unwrap()` panic (reachable only if
`seats_num` and `seats.len()` disagree); `none` in the result's first
component is the sold-out/unknown-flight case, which leaves the ledger
unchanged. -/
def reserveSeat (db : List FlightDB) (flight_num : Nat) :
    Option (Option String × List FlightDB) :=
  match db with
  | [] => some (none, [])
  | f :: rest =>
    if matchesReq flight_num f then
      match f.seats.getLast? with
      | none => none
      | some ticket =>
          some (some ticket,
            { info := { num := f.info.num, seats_num := f.info.seats_num - 1 },
              seats := f.seats.dropLast } :: rest)
    else
      match reserveSeat rest flight_num with
      | none => none
      | some (r, rest2) => some (r, f :: rest2)

/-- Iterate `reserveSeat` on one flight number, collecting the results in
call order (a panic at any call aborts the whole run). -/
def runReserves (db : List FlightDB) (flight_num : Nat) :
    Nat → Option (List (Option String) × List FlightDB)
  | 0 => some ([], db)
  | k + 1 =>
    match reserveSeat db flight_num with
    | none => none
    | some (r, db2) =>
      match runReserves db2 flight_num k with
      | none => none
      | some (rs, dbf) => some (r :: rs, dbf)

/-! ## Distributor request handler (`make_logic_fn`) -/

/-- UTF-8 bytes of a seat-code string (`ticket.as_bytes()`). -/
def strBytes (s : String) : List Nat := s.toUTF8.toList.map (fun b => b.toNat)

/-- UTF-8 bytes of the field key "num". -/
def keyNum : List Nat := [110, 117, 109]
/-- UTF-8 bytes of the field key "seats_num". -/
def keySeatsNum : List Nat := [115, 101, 97, 116, 115, 95, 110, 117, 109]

/-- `convert_to_bytes`: `serde_cbor` encoding of a `Vec<FlightInfo>` (an
array of two-entry maps). -/
def convert_to_bytes (flights : List FlightInfo) : List Nat :=
  cborHead 4 flights.length ++
    (flights.map (fun f =>
      cborHead 5 2 ++ cborText keyNum ++ cborHead 0 f.num ++
        cborText keySeatsNum ++ cborHead 0 f.seats_num)).flatten

/-- `u32::from_le_bytes` of the first four payload bytes. -/
def fromLeBytes4 (d : List Nat) : Nat :=
  d.getD 0 0 + 256 * d.getD 1 0 + 65536 * d.getD 2 0 + 16777216 * d.getD 3 0

/-- The handler closure built by `Distributor::make_logic_fn`, as a function
of the shared ledger: `Ping` answers `Ok`; `GetFlights` answers `Ok` with the
serialized flight list; `RequestTicket` unwraps the payload (panicking on any
retrieval error, modelled by `none`), panics if it is shorter than 4 bytes
(the `[0..4]` slice), and otherwise reserves a seat, answering `Ok` with the
seat code or `TicketsSold`. -/
def make_logic_fn (db : List FlightDB) (packet : UdpPacket) :
    Option (UdpPacket × List FlightDB) :=
  match packet.request with
  | PacketRequest.Ping => some (packet.set_response PacketResponse.Ok, db)
  | PacketRequest.GetFlights =>
      let flights := db.map (fun f => f.info)
      some ((packet.set_response PacketResponse.Ok).set_data
        (convert_to_bytes flights), db)
  | PacketRequest.RequestTicket =>
    match packet.try_retrieve_data with
    | Except.error _ => none
    | Except.ok d =>
      if d.length < 4 then none
      else
        let flight_num := fromLeBytes4 (d.take 4)
        match reserveSeat db flight_num with
        | none => none
        | some (some ticket, db2) =>
            some (((packet.set_response PacketResponse.Ok).set_data
              (strBytes ticket)), db2)
        | some (none, db2) =>
            some (packet.set_response PacketResponse.TicketsSold, db2)

/-! ## Server loop (`tool_udphelper/serverside.rs`) -/

/-- `ServerSide::process_recieved_packet` for one datagram: decode the bytes
(`data.into()`, a panic on malformed input, modelled by the outer `none`),
run the handler (which may itself panic), and send the encoded result back
unless its response kind is `None`.  The inner `Option` is the datagram sent
back (`none` = nothing sent). -/
def process_recieved_packet (processing_fn : UdpPacket → Option UdpPacket)
    (data : List Nat) : Option (Option (List Nat)) :=
  match from_bytes data with
  | none => none
  | some packet =>
    match processing_fn packet with
    | none => none
    | some packet2 =>
        if packet2.response ≠ PacketResponse.None then some (some (to_bytes packet2))
        else some none

/-! ## Client session (`tool_udphelper/clientside.rs`)

The socket itself is external; its observable outcomes are parameters.
`NetOutcome` is what happens after `send`/`recv` inside `send_and_recv`;
`PingEnv` adds the `timeout(1s, ...)` wrapper used by `ping_server`. -/

/-- Outcome of the network round inside `send_and_recv`. -/
inductive NetOutcome where
  | ioError (e : String)
  | replied (bytes : List Nat)

/-- Outcome of `timeout(Duration::from_secs(1), send_and_recv(ping))`. -/
inductive PingEnv where
  | timedOut
  | completed (n : NetOutcome)

/-- `ClientSide` state: the remote-association flag. -/
structure ClientSide where
  is_connected : Bool
  deriving DecidableEq, Repr

/-- `ClientSide::new_with_address` produces an unconnected session. -/
def ClientSide.new : ClientSide := { is_connected := false }

/-- `ClientSide::send_and_recv`: fail with "Not connected to any server!"
before sending anything when the session is not connected; otherwise send
the encoded packet and decode the reply (`.into()`, a panic on malformed
bytes, modelled by the outer `none`).  The first component lists the
datagrams sent. -/
def send_and_recv (c : ClientSide) (packet : UdpPacket) (net : NetOutcome) :
    List (List Nat) × Option (Except String UdpPacket) :=
  if ¬ c.is_connected then
    ([], some (Except.error "Not connected to any server!"))
  else
    match net with
    | NetOutcome.ioError e => ([to_bytes packet], some (Except.error e))
    | NetOutcome.replied bytes =>
      match from_bytes bytes with
      | none => ([to_bytes packet], none)
      | some reply => ([to_bytes packet], some (Except.ok reply))

/-- `ClientSide::ping_server`: one Liveness round-trip under a 1-second
timeout; a non-`Ok` response is "Ping is not OK!". -/
def ping_server (c : ClientSide) (env : PingEnv) : Option (Except String Unit) :=
  match env with
  | PingEnv.timedOut => some (Except.error "deadline has elapsed")
  | PingEnv.completed n =>
    match (send_and_recv c (UdpPacket.new_with_request PacketRequest.Ping) n).2 with
    | none => none
    | some (Except.error e) => some (Except.error e)
    | some (Except.ok reply) =>
        if reply.response ≠ PacketResponse.Ok then
          some (Except.error "Ping is not OK!")
        else some (Except.ok ())

/-- `ClientSide::set_server`: set `is_connected` to `true` first, then
associate the socket (an error there returns early with the flag still set),
then ping the server, reverting the flag on a ping failure. -/
def set_server (c : ClientSide) (connectErr : Option String) (env : PingEnv) :
    Option (ClientSide × Except String Unit) :=
  let c1 : ClientSide := { c with is_connected := true }
  match connectErr with
  | some e => some (c1, Except.error e)
  | none =>
    match ping_server c1 env with
    | none => none
    | some (Except.error e) =>
        some ({ c1 with is_connected := false }, Except.error e)
    | some (Except.ok _) => some (c1, Except.ok ())

/-! ## Ledger invariant and helper lemmas -/

/-- The ledger invariant: every record's public seat count agrees with its
unissued-seat list. -/
def Inv (db : List FlightDB) : Prop :=
  ∀ f ∈ db, f.info.seats_num = f.seats.length

instance (db : List FlightDB) : Decidable (Inv db) := by
  unfold Inv; infer_instance

theorem reserveSeat_all_miss {db : List FlightDB} {n : Nat}
    (h : ∀ f ∈ db, ¬ matchesReq n f) : reserveSeat db n = some (none, db) := by
  induction db with
  | nil => rfl
  | cons f rest ih =>
    have hf : ¬ matchesReq n f := h f (by simp)
    rw [reserveSeat, if_neg hf, ih (fun g hg => h g (by simp [hg]))]

theorem reserveSeat_scan {pre db2 : List FlightDB} {n : Nat}
    (h : ∀ f ∈ pre, ¬ matchesReq n f) :
    reserveSeat (pre ++ db2) n =
      match reserveSeat db2 n with
      | none => none
      | some (r, d) => some (r, pre ++ d) := by
  induction pre with
  | nil =>
    simp only [List.nil_append]
    cases hr : reserveSeat db2 n with
    | none => rfl
    | some v => cases v; rfl
  | cons f rest ih =>
    have hf : ¬ matchesReq n f := h f (by simp)
    rw [List.cons_append, reserveSeat, if_neg hf, ih (fun g hg => h g (by simp [hg]))]
    cases hr : reserveSeat db2 n with
    | none => rfl
    | some v => cases v; rfl

theorem reserveSeat_hit {rec : FlightDB} {post : List FlightDB} {n : Nat}
    (hm : matchesReq n rec) (hne : rec.seats ≠ []) :
    reserveSeat (rec :: post) n =
      some (some (rec.seats.getLast hne),
        { info := { num := rec.info.num, seats_num := rec.info.seats_num - 1 },
          seats := rec.seats.dropLast } :: post) := by
  rw [reserveSeat, if_pos hm, List.getLast?_eq_getLast rec.seats hne]

theorem reserveSeat_inv {db : List FlightDB} {n : Nat} {r : Option String}
    {db2 : List FlightDB} (hinv : Inv db) (h : reserveSeat db n = some (r, db2)) :
    Inv db2 := by
  induction db generalizing r db2 with
  | nil =>
    simp only [reserveSeat, Option.some.injEq, Prod.mk.injEq] at h
    rw [← h.2]; exact hinv
  | cons f rest ih =>
    have hfrest : Inv rest := fun g hg => hinv g (by simp [hg])
    have hf := hinv f (by simp)
    rw [reserveSeat] at h
    by_cases hm : matchesReq n f
    · rw [if_pos hm] at h
      cases hl : f.seats.getLast? with
      | none => rw [hl] at h; exact absurd h (by simp)
      | some t =>
        rw [hl] at h
        simp only [Option.some.injEq, Prod.mk.injEq] at h
        rw [← h.2]
        intro g hg
        rcases List.mem_cons.mp hg with hg | hg
        · subst hg
          simp only [List.length_dropLast, hf]
        · exact hfrest g hg
    · rw [if_neg hm] at h
      cases hr : reserveSeat rest n with
      | none => rw [hr] at h; exact absurd h (by simp)
      | some v =>
        obtain ⟨r2, rest2⟩ := v
        rw [hr] at h
        simp only [Option.some.injEq, Prod.mk.injEq] at h
        rw [← h.2]
        intro g hg
        rcases List.mem_cons.mp hg with hg | hg
        · subst hg; exact hf
        · exact ih hfrest (hr.trans (by rw [h.1])) g hg

theorem reserveSeat_total {db : List FlightDB} {n : Nat} (hinv : Inv db) :
    ∃ r db2, reserveSeat db n = some (r, db2) := by
  induction db with
  | nil => exact ⟨none, [], rfl⟩
  | cons f rest ih =>
    have hfrest : Inv rest := fun g hg => hinv g (by simp [hg])
    by_cases hm : matchesReq n f
    · have hne : f.seats ≠ [] := by
        have hf := hinv f (by simp)
        intro hcon
        rw [hcon] at hf
        simp only [List.length_nil] at hf
        exact absurd (hf ▸ hm.2) (by simp)
      exact ⟨_, _, reserveSeat_hit hm hne⟩
    · obtain ⟨r, db2, hr⟩ := ih hfrest
      exact ⟨r, f :: db2, by rw [reserveSeat, if_neg hm, hr]⟩

/-- Seat-count lemma for the generated seat lists. -/
theorem genSeats_length (rows : Nat) : (genSeats rows).length = rows * 6 := by
  induction rows with
  | zero => rfl
  | succ r ih =>
    rw [genSeats, List.range_succ, List.map_append, List.flatten_append]
    simp only [List.length_append, List.map_cons, List.map_nil, List.flatten_cons,
      List.flatten_nil, List.append_nil, List.length_map]
    rw [show ((List.range r).map (fun row =>
      seatLetters.map (fun letter => String.singleton letter ++ toString (row + 1)))).flatten
        = genSeats r from rfl, ih]
    simp only [show seatLetters.length = 6 from rfl]
    omega

theorem gen_fake_flight_inv {db : List FlightDB} {rows : Nat} (hinv : Inv db) :
    Inv (gen_fake_flight db rows) := by
  intro f hf
  rw [gen_fake_flight] at hf
  rcases List.mem_append.mp hf with hf | hf
  · exact hinv f hf
  · rcases List.mem_singleton.mp hf with rfl
    simp only [genSeats_length]

/-- C7: in the empty ledger and after every `gen_fake_flight` and every
(non-panicking) `reserveSeat`, each record's `seats_num` equals the length of
its unissued seat list; `gen_fake_flight` establishes it for the new record
with exactly `clampRows rows * 6` seats, and `reserveSeat` preserves it. -/
theorem claim_C7_seats_invariant :
    Inv ([] : List FlightDB) ∧
    (∀ db rows, Inv db → Inv (gen_fake_flight db rows)) ∧
    (∀ db rows, ∃ rec, gen_fake_flight db rows = db ++ [rec] ∧
      rec.info.seats_num = clampRows rows * 6 ∧
      rec.seats.length = clampRows rows * 6) ∧
    (∀ db n r db2, Inv db → reserveSeat db n = some (r, db2) → Inv db2) := by
  refine ⟨fun f hf => absurd hf (by simp), fun db rows h => gen_fake_flight_inv h,
    fun db rows => ⟨_, rfl, rfl, genSeats_length _⟩,
    fun db n r db2 hinv h => reserveSeat_inv hinv h⟩

/-- C5: `try_retrieve_data` has exactly three failure modes — wrong secret
("Secret is invalid!"), missing payload ("Data is None!"), and checksum
mismatch ("Crc error!") — which are pairwise distinct; with secret 51, a
payload present and a matching checksum it succeeds with the stored bytes.
It is a total function of the packet (no panic), and the packet, its request
and its response are left untouched for every input (retrieval only reads). -/
theorem claim_C5_retrieval_errors (p : UdpPacket) :
    (p.secret ≠ 51 → p.try_retrieve_data = Except.error "Secret is invalid!") ∧
    (p.secret = 51 → p.data = none →
      p.try_retrieve_data = Except.error "Data is None!") ∧
    (∀ pd, p.secret = 51 → p.data = some pd → pd.crc ≠ make_crc pd.data →
      p.try_retrieve_data = Except.error "Crc error!") ∧
    (∀ pd, p.secret = 51 → p.data = some pd → pd.crc = make_crc pd.data →
      p.try_retrieve_data = Except.ok pd.data) ∧
    (("Secret is invalid!" : String) ≠ "Data is None!" ∧
      ("Secret is invalid!" : String) ≠ "Crc error!" ∧
      ("Data is None!" : String) ≠ "Crc error!") := by
  refine ⟨fun hs => ?_, fun hs hd => ?_, fun pd hs hd hc => ?_, fun pd hs hd hc => ?_,
    by decide⟩
  · rw [UdpPacket.try_retrieve_data, if_pos hs]
  · rw [UdpPacket.try_retrieve_data, if_neg (by simp [hs]), hd]
  · rw [UdpPacket.try_retrieve_data, if_neg (by simp [hs]), hd]
    simp only [PacketData.try_retrieve_data]
    rw [show (pd.crc == make_crc pd.data) = false from beq_eq_false_iff_ne.mpr hc]
  · rw [UdpPacket.try_retrieve_data, if_neg (by simp [hs]), hd]
    simp [PacketData.try_retrieve_data, hc]

/-- Shorthand constructor for a ledger record. -/
def flightRec (num seats_num : Nat) (seats : List String) : FlightDB :=
  { info := { num := num, seats_num := seats_num }, seats := seats }

theorem reserveSeat_hit_concat {rem : List String} {t : String} {nm sn : Nat}
    {post : List FlightDB} {n : Nat} (hm : matchesReq n (flightRec nm sn (rem ++ [t]))) :
    reserveSeat (flightRec nm sn (rem ++ [t]) :: post) n =
      some (some t, flightRec nm (sn - 1) rem :: post) := by
  rw [reserveSeat, if_pos hm]
  simp [flightRec, List.getLast?_concat, List.dropLast_concat]

theorem runReserves_succ {db : List FlightDB} {n : Nat} {r : Option String}
    {db2 : List FlightDB} (h : reserveSeat db n = some (r, db2)) (k : Nat) :
    runReserves db n (k + 1) =
      match runReserves db2 n k with
      | none => none
      | some (rs, dbf) => some (r :: rs, dbf) := by
  rw [runReserves, h]

/-- The exact trace of `k` successive `RequestTicket` reservations on the
unique record with number `n`: the last seats are issued in reverse order
until the list is exhausted, every further call answers `none`, and only
that record changes. -/
theorem runReserves_spec (pre post : List FlightDB) (n : Nat)
    (hpre : ∀ f ∈ pre, f.info.num ≠ n) (hpost : ∀ f ∈ post, f.info.num ≠ n) :
    ∀ (k : Nat) (s : List String),
      runReserves (pre ++ flightRec n s.length s :: post) n k =
        some ((s.reverse.take k).map some ++ List.replicate (k - s.length) none,
          pre ++ flightRec n (s.length - k) (s.take (s.length - k)) :: post) := by
  intro k
  induction k with
  | zero =>
    intro s
    simp [runReserves, List.take_length]
  | succ k ih =>
    intro s
    rcases List.eq_nil_or_concat s with rfl | ⟨rem, t, hs⟩
    · have hmiss : ∀ f ∈ pre ++ flightRec n ([] : List String).length [] :: post,
          ¬ matchesReq n f := by
        intro f hf
        rcases List.mem_append.mp hf with hf | hf
        · exact fun hmf => hpre f hf hmf.1
        · rcases List.mem_cons.mp hf with rfl | hf
          · exact fun hmf => absurd hmf.2 (by simp [flightRec])
          · exact fun hmf => hpost f hf hmf.1
      rw [runReserves_succ (reserveSeat_all_miss hmiss) k, ih []]
      simp [List.replicate_succ]
    · rw [List.concat_eq_append] at hs
      subst hs
      have hpre2 : ∀ f ∈ pre, ¬ matchesReq n f := fun f hf hmf => hpre f hf hmf.1
      have hm : matchesReq n (flightRec n (rem ++ [t]).length (rem ++ [t])) :=
        ⟨rfl, by simp [flightRec]⟩
      have hstep : reserveSeat (pre ++ flightRec n (rem ++ [t]).length (rem ++ [t])
          :: post) n =
          some (some t, pre ++ flightRec n ((rem ++ [t]).length - 1) rem :: post) := by
        rw [reserveSeat_scan hpre2, reserveSeat_hit_concat hm]
      have hlen : (rem ++ [t]).length - 1 = rem.length := by simp
      rw [hlen] at hstep
      rw [runReserves_succ hstep k, ih rem]
      have h1 : (rem ++ [t]).reverse.take (k + 1) = t :: rem.reverse.take k := by
        rw [List.reverse_append]
        rfl
      have h2 : (k + 1) - (rem ++ [t]).length = k - rem.length := by
        simp [Nat.succ_sub_succ]
      have h3 : (rem ++ [t]).length - (k + 1) = rem.length - k := by
        simp [Nat.succ_sub_succ]
      have h4 : (rem ++ [t]).take (rem.length - k) = rem.take (rem.length - k) :=
        List.take_append_of_le_length (Nat.sub_le _ _)
      rw [h1, h2, h3, h4]
      rfl

/-- C1: sequential `reserve_seat` calls on a single flight (the unique record
numbered `n`, its seat count agreeing with its seat list, as established by
`gen_fake_flight`) never issue a seat code twice: the issued codes are the
distinct last elements of the seat list, all belong to the flight\'s seat
set, issuance stops exactly when the seats run out, and every call after the
count reaches zero returns `none`, indefinitely.  The witness instantiates
the 1-row flight: 10 requests give 6 distinct codes and 4 `none`s. -/
theorem claim_C1_no_double_booking (pre post : List FlightDB) (rec : FlightDB)
    (n k : Nat) (hnum : rec.info.num = n)
    (hinv : rec.info.seats_num = rec.seats.length)
    (hpre : ∀ f ∈ pre, f.info.num ≠ n) (hpost : ∀ f ∈ post, f.info.num ≠ n)
    (hnodup : rec.seats.Nodup) :
    runReserves (pre ++ rec :: post) n k =
      some ((rec.seats.reverse.take k).map some ++
          List.replicate (k - rec.seats.length) none,
        pre ++ flightRec n (rec.seats.length - k)
          (rec.seats.take (rec.seats.length - k)) :: post) ∧
    (rec.seats.reverse.take k).Nodup ∧
    (∀ t ∈ rec.seats.reverse.take k, t ∈ rec.seats) ∧
    (∀ j, runReserves (pre ++ flightRec n 0 [] :: post) n j =
      some (List.replicate j none, pre ++ flightRec n 0 [] :: post)) := by
  have hrec : rec = flightRec n rec.seats.length rec.seats := by
    obtain ⟨⟨a, b⟩, seats⟩ := rec
    simp only [flightRec]
    rw [← hnum, ← hinv]
  refine ⟨?_, ?_, ?_, ?_⟩
  · conv_lhs => rw [hrec]
    exact runReserves_spec pre post n hpre hpost k rec.seats
  · exact (List.take_sublist k _).nodup (List.nodup_reverse.mpr hnodup)
  · exact fun t ht => List.mem_reverse.mp (List.mem_of_mem_take ht)
  · intro j
    have h := runReserves_spec pre post n hpre hpost j []
    simpa using h

/-- C1 witness: the flight generated by `gen_fake_flight` with one row,
asked 10 times, issues exactly the 6 distinct codes F1, E1, D1, C1, B1, A1
(a subset of the generated seat set) and then answers `none` 4 times. -/
theorem claim_C1_no_double_booking_witness :
    runReserves (gen_fake_flight [] 1) 1 10 =
      some ([some "F1", some "E1", some "D1", some "C1", some "B1", some "A1",
          none, none, none, none], [flightRec 1 0 []]) ∧
    (["F1", "E1", "D1", "C1", "B1", "A1"] : List String).Nodup ∧
    (∀ t ∈ (["F1", "E1", "D1", "C1", "B1", "A1"] : List String), t ∈ genSeats 1) := by
  have h := claim_C1_no_double_booking [] []
    (flightRec 1 6 ["A1", "B1", "C1", "D1", "E1", "F1"]) 1 10 rfl rfl
    (by simp) (by simp) (by decide)
  have hdb : gen_fake_flight [] 1 =
      [] ++ flightRec 1 6 ["A1", "B1", "C1", "D1", "E1", "F1"] :: [] := by decide
  refine ⟨?_, by decide, by decide⟩
  rw [hdb]
  exact h.1.trans (by decide)

/-- C2: under the ledger invariant, the `RequestTicket` ledger operation is
total (no panic) and behaves as specified: with no record matching the
number (unknown flight or sold out) it returns nothing and leaves the whole
ledger unchanged; otherwise, at the first matching record it removes exactly
the last seat code, decrements that record\'s count by exactly one, leaves
every other record unchanged, and returns that code. -/
theorem claim_C2_reserve_spec (db : List FlightDB) (n : Nat) (hinv : Inv db) :
    (∃ res db2, reserveSeat db n = some (res, db2)) ∧
    ((∀ f ∈ db, ¬ matchesReq n f) → reserveSeat db n = some (none, db)) ∧
    (∀ pre rec post, db = pre ++ rec :: post →
      (∀ f ∈ pre, ¬ matchesReq n f) → matchesReq n rec →
      ∃ t rem, rec.seats = rem ++ [t] ∧
        rec.info.seats_num = rem.length + 1 ∧
        reserveSeat db n =
          some (some t, pre ++ flightRec rec.info.num rem.length rem :: post)) := by
  refine ⟨reserveSeat_total hinv, fun h => reserveSeat_all_miss h, ?_⟩
  intro pre rec post hdb hpre hm
  subst hdb
  have hrec : rec.info.seats_num = rec.seats.length := hinv rec (by simp)
  have hne : rec.seats ≠ [] := by
    intro hc
    rw [hc] at hrec
    simp only [List.length_nil] at hrec
    exact absurd hm.2 (by rw [hrec]; simp)
  refine ⟨rec.seats.getLast hne, rec.seats.dropLast,
    (List.dropLast_append_getLast hne).symm, ?_, ?_⟩
  · rw [hrec, List.length_dropLast]
    have : 0 < rec.seats.length := List.length_pos.mpr hne
    omega
  · rw [reserveSeat_scan hpre, reserveSeat_hit hm hne]
    have hlen : rec.info.seats_num - 1 = rec.seats.dropLast.length := by
      rw [hrec, List.length_dropLast]
    rw [hlen]
    rfl

/-- C2 witness: on a concrete one-flight ledger satisfying the invariant, the
operation is defined (no panic). -/
theorem claim_C2_reserve_spec_witness :
    ∃ res db2, reserveSeat [flightRec 7 1 ["A1"]] 7 = some (res, db2) :=
  (claim_C2_reserve_spec [flightRec 7 1 ["A1"]] 7 (by decide)).1

/-- C3 (code bug): processing a well-formed `RequestTicket` datagram that
carries no payload panics — `make_logic_fn` unwraps `try_retrieve_data`
unconditionally, so the decode-handle-reply unit for that datagram aborts
instead of ignoring it or answering with an error response kind, whatever
the ledger contents. -/
theorem claim_C3_requestticket_panics (db : List FlightDB) :
    process_recieved_packet (fun p => (make_logic_fn db p).map Prod.fst)
      (to_bytes (UdpPacket.new_with_request PacketRequest.RequestTicket)) = none :=
  rfl

deriving instance DecidableEq for Except

/-! ## Properties of `gen_fake_flight` -/

theorem clampRows_bounds (rows : Nat) : 1 ≤ clampRows rows ∧ clampRows rows ≤ 42 := by
  unfold clampRows
  split <;> (try split) <;> omega

theorem mem_genSeats {r : Nat} {s : String} :
    s ∈ genSeats r ↔ ∃ c ∈ seatLetters, ∃ i, 1 ≤ i ∧ i ≤ r ∧
      s = String.singleton c ++ toString i := by
  simp only [genSeats, List.mem_flatten, List.mem_map]
  constructor
  · rintro ⟨l, ⟨row, hrow, rfl⟩, hs⟩
    obtain ⟨c, hc, rfl⟩ := List.mem_map.mp hs
    exact ⟨c, hc, row + 1, by omega, by
      have := List.mem_range.mp hrow
      omega, rfl⟩
  · rintro ⟨c, hc, i, h1, h2, rfl⟩
    refine ⟨seatLetters.map (fun letter => String.singleton letter ++ toString (i - 1 + 1)),
      ⟨i - 1, List.mem_range.mpr (by omega), rfl⟩, ?_⟩
    rw [Nat.sub_add_cancel h1]
    exact List.mem_map.mpr ⟨c, hc, rfl⟩

/-- C8: `gen_fake_flight` appends one record to the ledger; the record's
number is one more than the maximum existing flight number (1 for an empty
ledger, hence strictly larger than every existing number); the requested row
count is clamped into [1, 42] (0 becomes 1, 43 or more becomes 42, in-range
values kept); the record carries exactly `clampRows rows * 6` seats, its
seat codes being precisely the letters A..F crossed with the rows
1..`clampRows rows`.  In particular one row is generated for `rows = 0`
(6 seats) and 42 rows for `rows = 50` (252 seats). -/
theorem claim_C8_generate_flight (db : List FlightDB) (rows : Nat)
    (hnum : ∀ f ∈ db, f.info.num + 1 < 4294967296) :
    (∃ rec, gen_fake_flight db rows = db ++ [rec] ∧
      rec.seats = genSeats (clampRows rows) ∧
      rec.info.seats_num = clampRows rows * 6 ∧
      rec.seats.length = clampRows rows * 6 ∧
      (db = [] → rec.info.num = 1) ∧
      (∀ f ∈ db, f.info.num < rec.info.num) ∧
      (db ≠ [] → ∃ g ∈ db, rec.info.num = g.info.num + 1) ∧
      (∀ s, s ∈ rec.seats ↔ ∃ c ∈ seatLetters, ∃ i, 1 ≤ i ∧ i ≤ clampRows rows ∧
        s = String.singleton c ++ toString i)) ∧
    (1 ≤ clampRows rows ∧ clampRows rows ≤ 42) ∧
    (rows = 0 → clampRows rows = 1) ∧
    (43 ≤ rows → clampRows rows = 42) ∧
    (1 ≤ rows → rows ≤ 42 → clampRows rows = rows) ∧
    gen_fake_flight [] 0 = [flightRec 1 6 (genSeats 1)] ∧
    gen_fake_flight [] 50 = [flightRec 1 252 (genSeats 42)] ∧
    (genSeats 1).length = 6 ∧ (genSeats 42).length = 252 := by
  have hlen1 : (genSeats 1).length = 6 := by rw [genSeats_length]
  have hlen42 : (genSeats 42).length = 252 := by rw [genSeats_length]
  have hclampEq : 1 ≤ rows → rows ≤ 42 → clampRows rows = rows := by
    intro h1 h2
    unfold clampRows
    split <;> (try split) <;> omega
  refine ⟨?_, clampRows_bounds rows, fun h => by simp [clampRows, h],
    fun h => by simp [clampRows, h], hclampEq, rfl, rfl, hlen1, hlen42⟩
  cases hmx : (db.map (fun f => f.info.num)).max? with
  | none =>
    have hdb : db = [] := List.map_eq_nil_iff.mp (List.max?_eq_none_iff.mp hmx)
    subst hdb
    refine ⟨flightRec 1 (clampRows rows * 6) (genSeats (clampRows rows)),
      rfl, rfl, rfl, genSeats_length _, fun _ => rfl, by simp, by simp,
      fun s => mem_genSeats⟩
  | some m =>
    obtain ⟨hmem, hle⟩ := (List.max?_eq_some_iff (fun a => le_refl a)
      (fun a b => max_choice a b) (fun a b c => max_le_iff)).mp hmx
    obtain ⟨g, hg, hgm⟩ := List.mem_map.mp hmem
    have hlt : 1 + m < 4294967296 := by
      have := hnum g hg
      omega
    have hmod : (1 + m) % 4294967296 = 1 + m := Nat.mod_eq_of_lt hlt
    have heq : gen_fake_flight db rows =
        db ++ [flightRec (1 + m) (clampRows rows * 6) (genSeats (clampRows rows))] := by
      simp only [gen_fake_flight, hmx, flightRec, hmod]
    refine ⟨flightRec (1 + m) (clampRows rows * 6) (genSeats (clampRows rows)),
      heq, rfl, rfl, genSeats_length _, ?_, ?_, ?_, fun s => mem_genSeats⟩
    · intro h
      rw [h] at hg
      exact absurd hg (by simp)
    · intro f hf
      have : f.info.num ≤ m := hle _ (List.mem_map.mpr ⟨f, hf, rfl⟩)
      simp only [flightRec]
      omega
    · intro _
      exact ⟨g, hg, by simp only [flightRec]; omega⟩

/-- C8 witness: the generation operation applied at the two row counts named
by the specification. -/
theorem claim_C8_generate_flight_witness :
    (gen_fake_flight [] 0).length = 1 ∧ (gen_fake_flight [] 50).length = 1 := by
  obtain ⟨⟨rec, heq, _⟩, _⟩ := claim_C8_generate_flight [] 0 (by simp)
  obtain ⟨⟨rec2, heq2, _⟩, _⟩ := claim_C8_generate_flight [] 50 (by simp)
  rw [heq, heq2]
  simp

/-- C9: the server transmits a reply for a decoded datagram exactly when the
handler's resulting response kind is not `None` — the check sits at the
single point where responses are sent (`process_recieved_packet`), so a
packet whose response is the `None` marker is never transmitted. -/
theorem claim_C9_noreply_never_sent (pfn : UdpPacket → Option UdpPacket)
    (data : List Nat) (p q : UdpPacket)
    (hdec : from_bytes data = some p) (hfn : pfn p = some q) :
    (q.response = PacketResponse.None →
      process_recieved_packet pfn data = some none) ∧
    (q.response ≠ PacketResponse.None →
      process_recieved_packet pfn data = some (some (to_bytes q))) := by
  constructor <;> intro hr
  · simp only [process_recieved_packet, hdec, hfn]
    rw [if_neg (by simp [hr])]
  · simp only [process_recieved_packet, hdec, hfn]
    rw [if_pos hr]

/-- C9 witness: a handler answering `Ok` to a Liveness datagram makes the
server send the encoded reply back. -/
theorem claim_C9_noreply_never_sent_witness :
    process_recieved_packet (fun p => some (p.set_response PacketResponse.Ok))
      (to_bytes (UdpPacket.new_with_request PacketRequest.Ping)) =
      some (some (to_bytes
        ((UdpPacket.new_with_request PacketRequest.Ping).set_response
          PacketResponse.Ok))) :=
  (claim_C9_noreply_never_sent
    (fun p => some (p.set_response PacketResponse.Ok))
    (to_bytes (UdpPacket.new_with_request PacketRequest.Ping))
    (UdpPacket.new_with_request PacketRequest.Ping)
    ((UdpPacket.new_with_request PacketRequest.Ping).set_response PacketResponse.Ok)
    (by decide) rfl).2 (by decide)

/-- C10 counterexample: a `set_server` call whose socket-association step
fails returns an error yet leaves the session marked connected, and the
following `send_and_recv` neither fails with the NotConnected error nor
refrains from sending — refuting the claim that after every failed connect
attempt, whatever its cause, a subsequent exchange fails NotConnected. -/
theorem claim_C10_counterexample :
    set_server ClientSide.new (some "connect failed") PingEnv.timedOut =
      some ({ is_connected := true }, Except.error "connect failed") ∧
    (send_and_recv { is_connected := true }
        (UdpPacket.new_with_request PacketRequest.Ping)
        (NetOutcome.ioError "io error")).2 = some (Except.error "io error") ∧
    (send_and_recv { is_connected := true }
        (UdpPacket.new_with_request PacketRequest.Ping)
        (NetOutcome.ioError "io error")).2 ≠
      some (Except.error "Not connected to any server!") ∧
    (send_and_recv { is_connected := true }
        (UdpPacket.new_with_request PacketRequest.Ping)
        (NetOutcome.ioError "io error")).1 ≠ [] := by
  refine ⟨rfl, rfl, by decide, by decide⟩

/-- C10 (amended): `send_and_recv` fails immediately with the NotConnected
error, sending nothing, whenever the session's connected flag is unset; the
flag is unset at session creation and after every `set_server` whose
liveness handshake failed (timeout, I/O failure or non-Ok reply).  But a
`set_server` whose socket-association step itself fails returns its error
with the flag still set, so only handshake failures — not every failed
connect attempt — leave the session disconnected. -/
theorem claim_C10_not_connected :
    (∀ c p net, c.is_connected = false →
      send_and_recv c p net =
        ([], some (Except.error "Not connected to any server!"))) ∧
    ClientSide.new.is_connected = false ∧
    (∀ c env c2 e, set_server c none env = some (c2, Except.error e) →
      c2.is_connected = false) ∧
    (∀ c e env, set_server c (some e) env =
      some ({ is_connected := true }, Except.error e)) := by
  refine ⟨?_, rfl, ?_, fun c e env => rfl⟩
  · intro c p net hc
    simp [send_and_recv, hc]
  · intro c env c2 e h
    simp only [set_server] at h
    cases hp : ping_server { is_connected := true } env with
    | none =>
      rw [hp] at h
      exact absurd h (by simp)
    | some r =>
      cases r with
      | error e2 =>
        rw [hp] at h
        simp only [Option.some.injEq, Prod.mk.injEq] at h
        rw [← h.1]
      | ok u =>
        rw [hp] at h
        simp at h

/-! ## Round-trip of the packet codec -/

theorem natXor_lt {a b : Nat} (ha : a < 65536) (hb : b < 65536) :
    a ^^^ b < 65536 := by
  have h3 : a ^^^ b < 2 ^ 16 := Nat.xor_lt_two_pow (by omega) (by omega)
  exact lt_of_lt_of_eq h3 (by norm_num)

theorem crcBitStep_lt {s : Nat} (hs : s < 65536) : crcBitStep s < 65536 := by
  unfold crcBitStep
  split
  · exact natXor_lt (by omega) (by norm_num)
  · omega

theorem crcIter_lt {m s : Nat} (hs : s < 65536) : crcIter m s < 65536 := by
  induction m generalizing s with
  | zero => exact hs
  | succ m ih => exact ih (crcBitStep_lt hs)

theorem crcByteStep_lt {s b : Nat} (hs : s < 65536) (hb : b < 65536) :
    crcByteStep s b < 65536 := by
  unfold crcByteStep
  exact crcIter_lt (natXor_lt hs hb)

theorem crcFold_lt {data : List Nat} {s : Nat} (hd : ∀ b ∈ data, b < 256)
    (hs : s < 65536) : data.foldl crcByteStep s < 65536 := by
  induction data generalizing s with
  | nil => exact hs
  | cons b rest ih =>
    exact ih (fun x hx => hd x (by simp [hx]))
      (crcByteStep_lt hs (by have := hd b (by simp); omega))

theorem make_crc_lt {data : List Nat} (hd : ∀ b ∈ data, b < 256) :
    make_crc data < 65536 := by
  unfold make_crc
  exact natXor_lt (crcFold_lt (s := 65535) hd (by norm_num)) (by norm_num)

/-- The CBOR item denoted by the serialized `data` field. -/
def dataVal : Option PacketData → CborVal
  | none => CborVal.null
  | some pd =>
      CborVal.map [(CborVal.text keyCrc, CborVal.uint pd.crc),
        (CborVal.text keyData, CborVal.arr (pd.data.map CborVal.uint))]

theorem parseHead_cborHead (m n : Nat) (rest : List Nat)
    (hn : n < 18446744073709551616) :
    parseHead (cborHead m n ++ rest) = some (m, n, rest) := by
  unfold cborHead
  by_cases h1 : n < 24
  · rw [if_pos h1]
    show parseHead ((32 * m + n) :: rest) = _
    have hq : (32 * m + n) / 32 = m := by omega
    have hr : (32 * m + n) % 32 = n := by omega
    simp only [parseHead, hq, hr, if_pos h1]
  · rw [if_neg h1]
    by_cases h2 : n < 256
    · rw [if_pos h2]
      show parseHead ((32 * m + 24) :: n :: rest) = _
      have hq : (32 * m + 24) / 32 = m := by omega
      have hr : (32 * m + 24) % 32 = 24 := by omega
      simp only [parseHead, hq, hr]
      simp
    · rw [if_neg h2]
      by_cases h3 : n < 65536
      · rw [if_pos h3]
        show parseHead ((32 * m + 25) :: n / 256 :: n % 256 :: rest) = _
        have hq : (32 * m + 25) / 32 = m := by omega
        have hr : (32 * m + 25) % 32 = 25 := by omega
        simp only [parseHead, hq, hr]
        simp only [show ¬ ((25:Nat) < 24) from by omega, show ((25:Nat) = 25) from rfl,
          show ¬ ((25:Nat) = 24) from by omega, if_false, if_true, ite_true, ite_false]
        simp
        omega
      · rw [if_neg h3]
        by_cases h4 : n < 4294967296
        · rw [if_pos h4]
          show parseHead ((32 * m + 26) :: n / 16777216 % 256 :: n / 65536 % 256 ::
            n / 256 % 256 :: n % 256 :: rest) = _
          have hq : (32 * m + 26) / 32 = m := by omega
          have hr : (32 * m + 26) % 32 = 26 := by omega
          simp only [parseHead, hq, hr]
          simp
          omega
        · rw [if_neg h4]
          show parseHead ((32 * m + 27) :: n / 72057594037927936 % 256 ::
            n / 281474976710656 % 256 :: n / 1099511627776 % 256 ::
            n / 4294967296 % 256 :: n / 16777216 % 256 :: n / 65536 % 256 ::
            n / 256 % 256 :: n % 256 :: rest) = _
          have hq : (32 * m + 27) / 32 = m := by omega
          have hr : (32 * m + 27) % 32 = 27 := by omega
          simp only [parseHead, hq, hr]
          simp
          omega

theorem parseOne_uint {g : Nat} (hg : 1 ≤ g) (n : Nat) (rest : List Nat)
    (hn : n < 18446744073709551616) :
    parseOne g (cborHead 0 n ++ rest) = some (CborVal.uint n, rest) := by
  obtain ⟨f, rfl⟩ : ∃ f, g = f + 1 := ⟨g - 1, by omega⟩
  simp only [parseOne, parseHead_cborHead 0 n rest hn]
  norm_num

theorem parseOne_text {g : Nat} (hg : 1 ≤ g) (s : List Nat) (rest : List Nat)
    (hs : s.length < 18446744073709551616) :
    parseOne g (cborText s ++ rest) = some (CborVal.text s, rest) := by
  obtain ⟨f, rfl⟩ : ∃ f, g = f + 1 := ⟨g - 1, by omega⟩
  simp only [cborText, List.append_assoc, parseOne,
    parseHead_cborHead 3 s.length (s ++ rest) hs]
  norm_num [List.take_left, List.drop_left]

theorem parseOne_null {g : Nat} (hg : 1 ≤ g) (rest : List Nat) :
    parseOne g (246 :: rest) = some (CborVal.null, rest) := by
  obtain ⟨f, rfl⟩ : ∃ f, g = f + 1 := ⟨g - 1, by omega⟩
  have hh : parseHead (246 :: rest) = some (7, 22, rest) := by
    simp only [parseHead]
    norm_num
  simp only [parseOne, hh]
  norm_num

theorem parseManyGo_cons {step : List Nat → Option (CborVal × List Nat)}
    {l : List Nat} {v : CborVal} {r : List Nat} (h : step l = some (v, r)) (c : Nat) :
    parseManyGo step (c + 1) l =
      match parseManyGo step c r with
      | none => none
      | some (vs, r2) => some (v :: vs, r2) := by
  rw [parseManyGo, h]

theorem parseBytesGo {g : Nat} (hg : 1 ≤ g) (d : List Nat)
    (hd : ∀ b ∈ d, b < 256) :
    ∀ rest, parseManyGo (parseOne g) d.length
      ((d.map (fun b => cborHead 0 b)).flatten ++ rest) =
      some (d.map CborVal.uint, rest) := by
  induction d with
  | nil => intro rest; simp [parseManyGo]
  | cons b d ih =>
    intro rest
    have hb : b < 256 := hd b (by simp)
    simp only [List.map_cons, List.flatten_cons, List.append_assoc, List.length_cons]
    rw [parseManyGo_cons (parseOne_uint hg b _ (by omega)) d.length,
      ih (fun x hx => hd x (by simp [hx])) rest]

theorem parseOne_byteArr {g : Nat} (hg : 2 ≤ g) (d : List Nat) (rest : List Nat)
    (hd : ∀ b ∈ d, b < 256) (hlen : d.length < 18446744073709551616) :
    parseOne g (cborHead 4 d.length ++
      ((d.map (fun b => cborHead 0 b)).flatten ++ rest)) =
      some (CborVal.arr (d.map CborVal.uint), rest) := by
  obtain ⟨f, rfl⟩ : ∃ f, g = f + 1 := ⟨g - 1, by omega⟩
  simp only [parseOne, parseHead_cborHead 4 d.length _ hlen]
  norm_num
  rw [parseBytesGo (by omega) d hd rest]

theorem parseOne_dataMap {g : Nat} (hg : 3 ≤ g) (pd : PacketData)
    (rest : List Nat) (hcrc : pd.crc < 18446744073709551616)
    (hd : ∀ b ∈ pd.data, b < 256)
    (hlen : pd.data.length < 18446744073709551616) :
    parseOne g (dataFieldBytes (some pd) ++ rest) =
      some (dataVal (some pd), rest) := by
  obtain ⟨f, rfl⟩ : ∃ f, g = f + 1 := ⟨g - 1, by omega⟩
  simp only [dataFieldBytes, List.append_assoc, parseOne,
    parseHead_cborHead 5 2 _ (by norm_num)]
  norm_num
  rw [parseManyGo_cons (parseOne_text (by omega) keyCrc _ (by decide)) 3,
    parseManyGo_cons (parseOne_uint (by omega) pd.crc _ hcrc) 2,
    parseManyGo_cons (parseOne_text (by omega) keyData _ (by decide)) 1,
    parseManyGo_cons (parseOne_byteArr (by omega) pd.data _ hd hlen) 0]
  rfl

theorem reqCode_lt (r : PacketRequest) : reqCode r < 24 := by
  cases r <;> norm_num [reqCode]

theorem respCode_lt (r : PacketResponse) : respCode r < 24 := by
  cases r <;> norm_num [respCode]

theorem parseOne_packet {g : Nat} (hg : 4 ≤ g) (p : UdpPacket) (rest : List Nat)
    (hsec : p.secret < 18446744073709551616)
    (hdata : ∀ pd ∈ p.data, pd.crc < 18446744073709551616 ∧
      (∀ b ∈ pd.data, b < 256) ∧ pd.data.length < 18446744073709551616) :
    parseOne g (to_bytes p ++ rest) =
      some (CborVal.map [(CborVal.text keySecret, CborVal.uint p.secret),
        (CborVal.text keyRequest, CborVal.uint (reqCode p.request)),
        (CborVal.text keyResponse, CborVal.uint (respCode p.response)),
        (CborVal.text keyData, dataVal p.data)], rest) := by
  obtain ⟨f, rfl⟩ : ∃ f, g = f + 1 := ⟨g - 1, by omega⟩
  have hdf : parseOne f (dataFieldBytes p.data ++ rest) =
      some (dataVal p.data, rest) := by
    cases hpd : p.data with
    | none => exact parseOne_null (by omega) rest
    | some pd =>
      obtain ⟨h1, h2, h3⟩ := hdata pd (by rw [hpd]; rfl)
      exact parseOne_dataMap (by omega) pd rest h1 h2 h3
  simp only [to_bytes, List.append_assoc, parseOne,
    parseHead_cborHead 5 4 _ (by norm_num)]
  norm_num
  rw [parseManyGo_cons (parseOne_text (by omega) keySecret _ (by decide)) 7,
    parseManyGo_cons (parseOne_uint (by omega) p.secret _ hsec) 6,
    parseManyGo_cons (parseOne_text (by omega) keyRequest _ (by decide)) 5,
    parseManyGo_cons (parseOne_uint (by omega) (reqCode p.request) _
      (by have := reqCode_lt p.request; omega)) 4,
    parseManyGo_cons (parseOne_text (by omega) keyResponse _ (by decide)) 3,
    parseManyGo_cons (parseOne_uint (by omega) (respCode p.response) _
      (by have := respCode_lt p.response; omega)) 2,
    parseManyGo_cons (parseOne_text (by omega) keyData _ (by decide)) 1,
    parseManyGo_cons hdf 0]
  rfl

theorem decodeRequest_reqCode (r : PacketRequest) :
    decodeRequest (CborVal.uint (reqCode r)) = some r := by
  cases r <;> rfl

theorem decodeResponse_respCode (r : PacketResponse) :
    decodeResponse (CborVal.uint (respCode r)) = some r := by
  cases r <;> rfl

theorem decodeByteVec_map (d : List Nat) (hd : ∀ b ∈ d, b < 256) :
    decodeByteVec (CborVal.arr (d.map CborVal.uint)) = some d := by
  simp only [decodeByteVec]
  induction d with
  | nil => rfl
  | cons b rest ih =>
    have hb : b < 256 := hd b (by simp)
    simp only [List.map_cons, List.mapM_cons, decodeU8, if_pos hb,
      Option.bind_eq_bind, Option.some_bind]
    rw [ih (fun x hx => hd x (by simp [hx]))]
    rfl

theorem decodePacketData_dataVal (pd : PacketData) (hcrc : pd.crc < 65536)
    (hd : ∀ b ∈ pd.data, b < 256) :
    decodePacketData (dataVal (some pd)) = some pd := by
  have hne : keyData ≠ keyCrc := by decide
  simp [dataVal, decodePacketData, decodePdFields, pdFieldOf, hne, decodeU16,
    hcrc, decodeByteVec_map pd.data hd]

theorem decodeDataField_dataVal (o : Option PacketData)
    (h : ∀ pd ∈ o, pd.crc < 65536 ∧ ∀ b ∈ pd.data, b < 256) :
    decodeDataField (dataVal o) = some o := by
  cases o with
  | none => rfl
  | some pd =>
    obtain ⟨h1, h2⟩ := h pd rfl
    have hh := decodePacketData_dataVal pd h1 h2
    simp only [dataVal] at hh
    simp [decodeDataField, dataVal, hh]

theorem decodePkFields_packet (p : UdpPacket) (hs : p.secret = 51)
    (hdd : decodeDataField (dataVal p.data) = some p.data) :
    decodePkFields [(CborVal.text keySecret, CborVal.uint p.secret),
      (CborVal.text keyRequest, CborVal.uint (reqCode p.request)),
      (CborVal.text keyResponse, CborVal.uint (respCode p.response)),
      (CborVal.text keyData, dataVal p.data)] none none none none = some p := by
  have h1 : keyRequest ≠ keySecret := by decide
  have h2 : keyResponse ≠ keySecret := by decide
  have h3 : keyResponse ≠ keyRequest := by decide
  have h4 : keyData ≠ keySecret := by decide
  have h5 : keyData ≠ keyRequest := by decide
  have h6 : keyData ≠ keyResponse := by decide
  obtain ⟨secret, request, response, data⟩ := p
  simp only [UdpPacket.mk.injEq] at hs ⊢
  subst hs
  simp [decodePkFields, pkFieldOf, h1, h2, h3, h4, h5, h6, decodeU8,
    decodeRequest_reqCode, decodeResponse_respCode, hdd]

/-- Round trip of the codec on any packet with the protocol secret and a
well-formed payload container: decoding the encoding gives back the packet. -/
theorem from_bytes_to_bytes (p : UdpPacket) (hs : p.secret = 51)
    (hdata : ∀ pd ∈ p.data, pd.crc < 65536 ∧ (∀ b ∈ pd.data, b < 256) ∧
      pd.data.length < 18446744073709551616) :
    from_bytes (to_bytes p) = some p := by
  have hp := parseOne_packet (g := 128) (by norm_num) p []
    (by rw [hs]; norm_num)
    (fun pd hpd => ⟨by have := (hdata pd hpd).1; omega, (hdata pd hpd).2.1,
      (hdata pd hpd).2.2⟩)
  rw [List.append_nil] at hp
  simp only [from_bytes, hp]
  exact decodePkFields_packet p hs
    (decodeDataField_dataVal p.data
      (fun pd hpd => ⟨(hdata pd hpd).1, (hdata pd hpd).2.1⟩))

/-- C4: for every packet built from a request kind, an optional payload and a
response kind, decoding its encoding reconstructs the packet exactly — in
particular the request kind, the response kind and (when a payload is
present) the retrieved payload bytes all coincide; `to_bytes` is a pure
function of the packet, so the encoding is deterministic. -/
theorem claim_C4_roundtrip (r : PacketRequest) (resp : PacketResponse)
    (bytes : List Nat) (hb : ∀ b ∈ bytes, b < 256)
    (hlen : bytes.length < 18446744073709551616) :
    (from_bytes (to_bytes ((UdpPacket.new_with_request r).set_response resp)) =
      some ((UdpPacket.new_with_request r).set_response resp)) ∧
    (from_bytes (to_bytes
        (((UdpPacket.new_with_request r).set_data bytes).set_response resp)) =
      some (((UdpPacket.new_with_request r).set_data bytes).set_response resp)) ∧
    ((((UdpPacket.new_with_request r).set_data bytes).set_response
        resp).try_retrieve_data = Except.ok bytes) := by
  refine ⟨?_, ?_, ?_⟩
  · exact from_bytes_to_bytes _ rfl (by simp [UdpPacket.new_with_request,
      UdpPacket.set_response])
  · refine from_bytes_to_bytes _ rfl ?_
    intro pd hpd
    have : pd = PacketData.new_with_data bytes := by
      simpa [UdpPacket.new_with_request, UdpPacket.set_data,
        UdpPacket.set_response, eq_comm] using hpd
    subst this
    exact ⟨make_crc_lt hb, hb, hlen⟩
  · simp [UdpPacket.try_retrieve_data, UdpPacket.new_with_request,
      UdpPacket.set_data, UdpPacket.set_response, PacketData.try_retrieve_data,
      PacketData.new_with_data]

/-- C4 witness: the round trip at the packet exchanged in the repository's
own serialization test. -/
theorem claim_C4_roundtrip_witness :
    from_bytes (to_bytes (((UdpPacket.new_with_request
        PacketRequest.Ping).set_data [100, 97, 116, 97]).set_response
        PacketResponse.None)) =
      some (((UdpPacket.new_with_request PacketRequest.Ping).set_data
        [100, 97, 116, 97]).set_response PacketResponse.None) :=
  (claim_C4_roundtrip PacketRequest.Ping PacketResponse.None
    [100, 97, 116, 97] (by decide) (by decide)).2.1

/-! ## Single-bit error detection of the CRC -/

theorem crcBitStep_inj {s1 s2 : Nat} (h1 : s1 < 65536) (h2 : s2 < 65536)
    (h : crcBitStep s1 = crcBitStep s2) : s1 = s2 := by
  unfold crcBitStep at h
  by_cases p1 : s1 % 2 = 1 <;> by_cases p2 : s2 % 2 = 1
  · rw [if_pos p1, if_pos p2] at h
    have hx : s1 / 2 = s2 / 2 := by
      have := congrArg (fun x => x ^^^ 33800) h
      simpa [Nat.xor_cancel_right] using this
    omega
  · rw [if_pos p1, if_neg p2] at h
    have hbit := congrArg (fun x => x.testBit 15) h
    simp only [Nat.testBit_xor] at hbit
    rw [Nat.testBit_eq_false_of_lt (show s1 / 2 < 2 ^ 15 by omega),
      Nat.testBit_eq_false_of_lt (show s2 / 2 < 2 ^ 15 by omega),
      show Nat.testBit 33800 15 = true by decide] at hbit
    simp at hbit
  · rw [if_neg p1, if_pos p2] at h
    have hbit := congrArg (fun x => x.testBit 15) h
    simp only [Nat.testBit_xor] at hbit
    rw [Nat.testBit_eq_false_of_lt (show s1 / 2 < 2 ^ 15 by omega),
      Nat.testBit_eq_false_of_lt (show s2 / 2 < 2 ^ 15 by omega),
      show Nat.testBit 33800 15 = true by decide] at hbit
    simp at hbit
  · rw [if_neg p1, if_neg p2] at h
    omega

theorem crcIter_inj (m : Nat) {s1 s2 : Nat} (h1 : s1 < 65536) (h2 : s2 < 65536)
    (h : crcIter m s1 = crcIter m s2) : s1 = s2 := by
  induction m generalizing s1 s2 with
  | zero => exact h
  | succ m ih =>
    exact crcBitStep_inj h1 h2 (ih (crcBitStep_lt h1) (crcBitStep_lt h2) h)

theorem crcByteStep_inj_state {s1 s2 b : Nat} (h1 : s1 < 65536)
    (h2 : s2 < 65536) (hb : b < 65536)
    (h : crcByteStep s1 b = crcByteStep s2 b) : s1 = s2 := by
  unfold crcByteStep at h
  have hx := crcIter_inj 8 (natXor_lt h1 hb) (natXor_lt h2 hb) h
  have := congrArg (fun x => x ^^^ b) hx
  simpa [Nat.xor_cancel_right] using this

theorem crcByteStep_inj_byte {s b1 b2 : Nat} (hs : s < 65536) (hb1 : b1 < 65536)
    (hb2 : b2 < 65536) (h : crcByteStep s b1 = crcByteStep s b2) : b1 = b2 := by
  unfold crcByteStep at h
  have hx := crcIter_inj 8 (natXor_lt hs hb1) (natXor_lt hs hb2) h
  have h2 := congrArg (fun x => s ^^^ x) hx
  simpa [Nat.xor_cancel_left] using h2

theorem crcFold_ne (data : List Nat) (hd : ∀ b ∈ data, b < 256) :
    ∀ {s1 s2 : Nat}, s1 < 65536 → s2 < 65536 → s1 ≠ s2 →
      data.foldl crcByteStep s1 ≠ data.foldl crcByteStep s2 := by
  induction data with
  | nil => intro s1 s2 _ _ hne; simpa using hne
  | cons b rest ih =>
    intro s1 s2 h1 h2 hne
    have hb : b < 65536 := by have := hd b (by simp); omega
    simp only [List.foldl_cons]
    exact ih (fun x hx => hd x (by simp [hx]))
      (crcByteStep_lt h1 hb) (crcByteStep_lt h2 hb)
      (fun hcon => hne (crcByteStep_inj_state h1 h2 hb hcon))

theorem xor_two_pow_ne (b k : Nat) : b ^^^ 2 ^ k ≠ b := by
  intro heq
  have hbit := congrArg (fun x => x.testBit k) heq
  simp only [Nat.testBit_xor, Nat.testBit_two_pow_self] at hbit
  cases hb : b.testBit k <;> rw [hb] at hbit <;> simp at hbit

/-- Flipping bit `k` of the byte at position `j` changes the CRC state fold,
whatever the starting state. -/
theorem crcFold_flip_ne (data : List Nat) (k : Nat) (hk : k < 8) :
    ∀ (j : Nat) (hj : j < data.length), (∀ b ∈ data, b < 256) → ∀ {s : Nat},
      s < 65536 →
      (data.set j (data.get ⟨j, hj⟩ ^^^ 2 ^ k)).foldl crcByteStep s ≠
        data.foldl crcByteStep s := by
  induction data with
  | nil => intro j hj; simp at hj
  | cons b rest ih =>
    intro j hj hd s hs
    have hb : b < 256 := hd b (by simp)
    have hrest : ∀ x ∈ rest, x < 256 := fun x hx => hd x (by simp [hx])
    cases j with
    | zero =>
      simp only [List.get, List.set, List.foldl_cons]
      have hflip : b ^^^ 2 ^ k < 256 := by
        have h2k : (2 : Nat) ^ k < 2 ^ 8 := Nat.pow_lt_pow_right (by norm_num) hk
        have := Nat.xor_lt_two_pow (show b < 2 ^ 8 by omega) h2k
        omega
      refine crcFold_ne rest hrest (crcByteStep_lt hs (by omega))
        (crcByteStep_lt hs (by omega)) ?_
      intro hcon
      exact xor_two_pow_ne b k
        (crcByteStep_inj_byte hs (by omega) (by omega) hcon)
    | succ m =>
      have hm : m < rest.length := by simpa using hj
      simp only [List.get, List.set, List.foldl_cons]
      exact ih m hm hrest (crcByteStep_lt hs (by omega))

/-- C6: for every payload stored by `set_data`, flipping any single bit of
the stored bytes makes the recomputed CRC-16/IBM-SDLC differ from the stored
integrity code, so `try_retrieve_data` fails with "Crc error!" instead of
silently returning the altered data. -/
theorem claim_C6_bit_flip (r : PacketRequest) (resp : PacketResponse)
    (bytes : List Nat) (hb : ∀ b ∈ bytes, b < 256) (j k : Nat)
    (hj : j < bytes.length) (hk : k < 8) :
    (((UdpPacket.new_with_request r).set_data bytes).set_response resp).data =
      some { crc := make_crc bytes, data := bytes } ∧
    make_crc (bytes.set j (bytes.get ⟨j, hj⟩ ^^^ 2 ^ k)) ≠ make_crc bytes ∧
    UdpPacket.try_retrieve_data
      ⟨51, r, resp,
        some ⟨make_crc bytes, bytes.set j (bytes.get ⟨j, hj⟩ ^^^ 2 ^ k)⟩⟩ =
      Except.error "Crc error!" := by
  have hcrcne : make_crc (bytes.set j (bytes.get ⟨j, hj⟩ ^^^ 2 ^ k)) ≠
      make_crc bytes := by
    unfold make_crc
    intro hcon
    have hfold : (bytes.set j (bytes.get ⟨j, hj⟩ ^^^ 2 ^ k)).foldl crcByteStep
        65535 = bytes.foldl crcByteStep 65535 := by
      have := congrArg (fun x => x ^^^ 65535) hcon
      simpa [Nat.xor_cancel_right] using this
    exact crcFold_flip_ne bytes k hk j hj hb (by norm_num) hfold
  refine ⟨rfl, hcrcne, ?_⟩
  rw [UdpPacket.try_retrieve_data, if_neg (by norm_num)]
  simp only [PacketData.try_retrieve_data]
  rw [show (make_crc bytes ==
      make_crc (bytes.set j (bytes.get ⟨j, hj⟩ ^^^ 2 ^ k))) = false from
    beq_eq_false_iff_ne.mpr (fun hcon => hcrcne hcon.symm)]

/-- C6 witness: flipping the lowest bit of the single byte 0 is detected. -/
theorem claim_C6_bit_flip_witness :
    UdpPacket.try_retrieve_data
      ⟨51, PacketRequest.Ping, PacketResponse.None,
        some ⟨make_crc [0], [1]⟩⟩ =
      Except.error "Crc error!" := by
  have h := (claim_C6_bit_flip PacketRequest.Ping PacketResponse.None [0]
    (by decide) 0 0 (by decide) (by decide)).2.2
  simpa using h

end TicketsDistribution
